import Mathlib

/-!
# SyncSonicPi — verification of the connection-orchestration core

Shallow embedding of the connection-orchestration engine of SyncSonicPi:
the controller-allocation planner (`connect_one_plan` in
`syncsonic_ble/flow/connect_planner.py`), the handshake FSM and worker of
`syncsonic_ble/flow/connection_service.py`, the scan coordinator of
`scan_manager.py`, and the D-Bus helpers of `syncsonic_ble/core/bt_helpers.py`.

Python dicts are modelled as association lists in insertion order (matching
Python's guaranteed dict iteration order); Python sets used only for
membership are modelled as lists; bus/audio side effects are modelled by
explicit outcome oracles and event traces.
-/

namespace SyncSonic

/-- The `org.bluez.Adapter1` interface data used by the planner. -/
structure Adapter1 where
  Address : String
deriving Repr, DecidableEq

/-- The `org.bluez.Device1` interface data used by the planner and FSM. -/
structure Device1 where
  Address : String
  Connected : Bool
  Paired : Bool := false
  Trusted : Bool := false
  UUIDs : List String := []
deriving Repr, DecidableEq

/-- The interfaces attached to one D-Bus object path (only those the core
reads). `none` models the interface being absent from the path's dict. -/
structure Ifaces where
  adapter : Option Adapter1 := none
  device : Option Device1 := none
deriving Repr, DecidableEq

/-- A `GetManagedObjects()` snapshot: object path → interfaces, in Python
dict iteration (= insertion) order. -/
abbrev ObjectTree := List (String × Ifaces)

/-- Models Python `str.upper()` (ASCII case mapping, structurally recursive so
the kernel can evaluate it). -/
def pyUpper (s : String) : String := ⟨s.data.map Char.toUpper⟩

/-- Models Python `s.split(sep)` for a one-character separator. -/
def splitOnChar (sep : Char) : List Char → List (List Char)
  | [] => [[]]
  | c :: rest =>
    match splitOnChar sep rest with
    | [] => [[]]
    | h :: t => if c = sep then [] :: h :: t else (c :: h) :: t

/-- Models Python `path.split("/")`. -/
def pySplitSlash (s : String) : List String :=
  (splitOnChar '/' s.data).map (fun cs => ⟨cs⟩)

/-- Models Python `sep.join(parts)`. -/
def joinWith (sep : String) : List String → String
  | [] => ""
  | [x] => x
  | x :: y :: t => x ++ sep ++ joinWith sep (y :: t)

/-- `path.split("/")[-1]` — the hci name of an adapter path. -/
def hciName (path : String) : String :=
  (pySplitSlash path).getLastD ""

/-- `"/".join(path.split("/")[:4])` — the adapter prefix of a device path. -/
def adapterPrefix (path : String) : String :=
  joinWith "/" ((pySplitSlash path).take 4)

/-- Python dict assignment `d[k] = v` on an association list: the first
occurrence of the key keeps its position and gets the new value; a new key
is appended at the end. -/
def dictInsert (k : String) (v : String) : List (String × String) → List (String × String)
  | [] => [(k, v)]
  | (k', v') :: t => if k' = k then (k, v) :: t else (k', v') :: dictInsert k v t

/-- `config_speaker_usage.setdefault(mac, []).append(ctrl)` on an
association list from MAC to the list of controllers it is connected on. -/
def usageAppend (k v : String) : List (String × List String) → List (String × List String)
  | [] => [(k, [v])]
  | (k', vs) :: t => if k' = k then (k', vs ++ [v]) :: t else (k', vs) :: usageAppend k v t

/-- The planner's first pass: build the map from (uppercased) adapter MAC to
object path, skipping the adapter whose hci name equals the reserved one
(`RESERVED_HCI`). -/
def plannerAdapters (reserved : String) (objects : ObjectTree) : List (String × String) :=
  objects.foldl
    (fun acc pi =>
      match pi.2.adapter with
      | some a =>
          if hciName pi.1 = reserved then acc
          else dictInsert (pyUpper a.Address) pi.1 acc
      | none => acc)
    []

/-- Accumulator of the planner's device-analysis loop. -/
structure Analysis where
  disc : List (String × String)
  tco : List String
  usage : List (String × List String)
  used : List String
deriving Repr, DecidableEq

/-- `config_speaker_usage.setdefault(dev_mac, []).append(ctrl_mac)` guarded by
`dev_mac in allowed_macs`. -/
def withUsage (allowed : List String) (dev ctrl : String) (acc : Analysis) : Analysis :=
  if allowed.contains dev then { acc with usage := usageAppend dev ctrl acc.usage } else acc

/-- `target_connected_on.append(ctrl_mac)`. -/
def recordTarget (ctrl : String) (acc : Analysis) : Analysis :=
  { acc with tco := acc.tco ++ [ctrl] }

/-- `disconnect_list.append((dev_mac, ctrl_mac))`. -/
def recordEvict (dev ctrl : String) (acc : Analysis) : Analysis :=
  { acc with disc := acc.disc ++ [(dev, ctrl)] }

/-- `used_controllers.add(ctrl_mac)` (set modelled as a list, membership only). -/
def recordUsed (ctrl : String) (acc : Analysis) : Analysis :=
  { acc with used := ctrl :: acc.used }

/-- One iteration of the planner's device-analysis loop, for the object at
path `pi.1` with interfaces `pi.2`. -/
def analyzeStep (adapters : List (String × String)) (target : String)
    (allowed : List String) (acc : Analysis) (pi : String × Ifaces) : Analysis :=
  match pi.2.device with
  | none => acc
  | some d =>
    match adapters.find? (fun q => q.2 == adapterPrefix pi.1) with
    | none => acc
    | some (ctrl, _) =>
      if ctrl = "" then acc   -- Python: `if not ctrl_mac: continue` is also taken for ""
      else if d.Connected then
        let acc1 := withUsage allowed (pyUpper d.Address) ctrl acc
        if pyUpper d.Address = target then recordTarget ctrl acc1
        else if ¬ allowed.contains (pyUpper d.Address) then
          recordEvict (pyUpper d.Address) ctrl acc1
        else recordUsed ctrl acc1
      else acc

/-- The planner's device-analysis loop over the whole snapshot. -/
def plannerAnalysis (adapters : List (String × String)) (target : String)
    (allowed : List String) (objects : ObjectTree) : Analysis :=
  objects.foldl (analyzeStep adapters target allowed) ⟨[], [], [], []⟩

/-- The planner's return value. -/
structure Decision where
  status : String
  ctrl : String
  evict : List (String × String)
deriving Repr, DecidableEq

/-- The decision logic of `connect_one_plan` after the analysis loop, on the
adapter map, the (uppercased) target and the analysis accumulator. -/
def planDecide (adapters : List (String × String)) (target : String) (a : Analysis) : Decision :=
  match a.tco with
  | c1 :: c2 :: rest =>
      -- target connected on multiple controllers: keep the first, evict the rest
      ⟨"already_connected", c1, a.disc ++ (c2 :: rest).map (fun c => (target, c))⟩
  | [controller] =>
      match a.usage.find? (fun p => p.1 ≠ target ∧ controller ∈ p.2) with
      | some _ =>
          -- target shares its controller with another config speaker: reallocate
          let disc1 := a.disc ++ [(target, controller)]
          match adapters.find? (fun p => ¬ a.used.contains p.1 ∧ p.1 ≠ controller) with
          | some cp => ⟨"needs_connection", cp.1, disc1⟩
          | none =>
            match a.usage.find? (fun p => 1 < p.2.length) with
            | some dp =>
                ⟨"needs_connection", dp.2.getD 1 "", disc1 ++ [(dp.1, dp.2.getD 1 "")]⟩
            | none => ⟨"error", "", disc1⟩
      | none => ⟨"already_connected", controller, a.disc⟩
  | [] =>
      match adapters.find? (fun p => ¬ a.used.contains p.1) with
      | some cp => ⟨"needs_connection", cp.1, a.disc⟩
      | none =>
        match a.usage.find? (fun p => 1 < p.2.length) with
        | some dp =>
            ⟨"needs_connection", dp.2.getD 1 "", a.disc ++ [(dp.1, dp.2.getD 1 "")]⟩
        | none => ⟨"error", "", a.disc⟩

/-- The analysis computed by `connect_one_plan` for the given raw inputs
(normalisation of target and allowed MACs included). -/
def planAnalysisOf (reserved target_mac : String) (allowed_macs : List String)
    (objects : ObjectTree) : Analysis :=
  plannerAnalysis (plannerAdapters reserved objects) (pyUpper target_mac)
    (allowed_macs.map pyUpper) objects

/-- `connect_one_plan` from `syncsonic_ble/flow/connect_planner.py`.
`reserved` is the module-level `RESERVED_HCI` environment value. -/
def connect_one_plan (reserved target_mac : String) (allowed_macs : List String)
    (objects : ObjectTree) : Decision :=
  planDecide (plannerAdapters reserved objects) (pyUpper target_mac)
    (planAnalysisOf reserved target_mac allowed_macs objects)

/-! ## Generic list lemmas -/

theorem find?_split {α : Type _} (p : α → Bool) :
    ∀ (l : List α) (x : α), l.find? p = some x →
      ∃ l1 l2, l = l1 ++ x :: l2 ∧ (∀ y ∈ l1, p y = false) ∧ p x = true := by
  intro l
  induction l with
  | nil => intro x h; simp at h
  | cons a t ih =>
    intro x h
    by_cases hpa : p a
    · rw [List.find?_cons_of_pos _ hpa] at h
      cases h
      exact ⟨[], t, by simp, by simp, hpa⟩
    · rw [List.find?_cons_of_neg _ hpa] at h
      obtain ⟨l1, l2, rfl, h1, h2⟩ := ih x h
      refine ⟨a :: l1, l2, rfl, ?_, h2⟩
      intro y hy
      rcases List.mem_cons.1 hy with rfl | hy
      · simpa using hpa
      · exact h1 y hy

theorem find?_of_mem {α : Type _} (p : α → Bool) :
    ∀ (l : List α) (x : α), x ∈ l → p x = true → ∃ y, l.find? p = some y := by
  intro l
  induction l with
  | nil => intro x hx; simp at hx
  | cons a t ih =>
    intro x hx hpx
    by_cases hpa : p a
    · exact ⟨a, List.find?_cons_of_pos _ hpa⟩
    · rw [List.find?_cons_of_neg _ hpa]
      rcases List.mem_cons.1 hx with rfl | hx
      · exact absurd hpx hpa
      · exact ih x hx hpx

/-! ## Analysis-loop lemmas -/

theorem withUsage_disc (al : List String) (dev ctrl : String) (acc : Analysis) :
    (withUsage al dev ctrl acc).disc = acc.disc := by
  unfold withUsage; split <;> rfl

theorem withUsage_tco (al : List String) (dev ctrl : String) (acc : Analysis) :
    (withUsage al dev ctrl acc).tco = acc.tco := by
  unfold withUsage; split <;> rfl

theorem withUsage_used (al : List String) (dev ctrl : String) (acc : Analysis) :
    (withUsage al dev ctrl acc).used = acc.used := by
  unfold withUsage; split <;> rfl

/-- Each analysis step only appends to the running `disconnect_list`. -/
theorem analyzeStep_disc (ad : List (String × String)) (t : String) (al : List String)
    (acc : Analysis) (pi : String × Ifaces) :
    acc.disc <+: (analyzeStep ad t al acc pi).disc := by
  unfold analyzeStep
  split
  · exact List.prefix_refl _
  · split
    · exact List.prefix_refl _
    · split
      · exact List.prefix_refl _
      · split
        · dsimp only
          split
          · simp only [recordTarget, withUsage_disc]
            exact List.prefix_refl _
          · split
            · simp only [recordEvict, withUsage_disc]
              exact List.prefix_append _ _
            · simp only [recordUsed, withUsage_disc]
              exact List.prefix_refl _
        · exact List.prefix_refl _

/-- The whole analysis loop only appends to the running `disconnect_list`. -/
theorem plannerAnalysis_disc_mono (ad : List (String × String)) (t : String)
    (al : List String) :
    ∀ (l : ObjectTree) (acc : Analysis),
      acc.disc <+: (l.foldl (analyzeStep ad t al) acc).disc := by
  intro l
  induction l with
  | nil => exact fun acc => List.prefix_refl _
  | cons x xs ih =>
    intro acc
    exact (analyzeStep_disc ad t al acc x).trans (ih (analyzeStep ad t al acc x))

/-- A connected device on a recognised adapter that is neither the target nor
in config is recorded in the `disconnect_list` by the analysis loop. -/
theorem analysis_evicts_mem (ad : List (String × String)) (t : String) (al : List String) :
    ∀ (l : ObjectTree) (acc : Analysis) (p : String) (i : Ifaces) (d : Device1) (c ap : String),
      (p, i) ∈ l → i.device = some d → d.Connected = true →
      ad.find? (fun q => q.2 == adapterPrefix p) = some (c, ap) → c ≠ "" →
      pyUpper d.Address ≠ t → ¬ al.contains (pyUpper d.Address) →
      (pyUpper d.Address, c) ∈ (l.foldl (analyzeStep ad t al) acc).disc := by
  intro l
  induction l with
  | nil => intro acc p i d c ap hmem; simp at hmem
  | cons x xs ih =>
    intro acc p i d c ap hmem hdev hconn hfind hc hnt hna
    rcases List.mem_cons.1 hmem with rfl | hmem
    · -- the device is processed at this step; afterwards disc only grows
      have hpre := plannerAnalysis_disc_mono ad t al xs (analyzeStep ad t al acc (p, i))
      rw [List.foldl_cons]
      apply hpre.subset
      have hstep : (analyzeStep ad t al acc (p, i)).disc
          = (withUsage al (pyUpper d.Address) c acc).disc ++ [(pyUpper d.Address, c)] := by
        unfold analyzeStep
        simp only [hdev, hfind, if_neg hc, hconn, if_true]
        rw [if_neg hnt, if_pos hna]
        rfl
      rw [hstep]
      simp
    · exact ih (analyzeStep ad t al acc x) p i d c ap hmem hdev hconn hfind hc hnt hna

/-- Every entry of the analysis `disconnect_list` appears in the final
decision's evict list, whatever branch is taken. -/
theorem planDecide_evict_superset (ad : List (String × String)) (t : String) (a : Analysis) :
    ∀ x ∈ a.disc, x ∈ (planDecide ad t a).evict := by
  intro x hx
  unfold planDecide
  split
  · simp [hx]
  · split
    · split
      · simp [hx]
      · split
        · simp [hx]
        · simp [hx]
    · simpa using hx
  · split
    · simpa using hx
    · split
      · simp [hx]
      · simpa using hx

/-! ## C6 -/

/-- C6: for every snapshot and every status returned, every device that is
connected on a non-reserved (recognised) adapter and whose MAC is neither the
target nor in the allowed (in-config) list appears in `connect_one_plan`'s
returned evict list paired with that adapter, unconditionally. -/
theorem connect_one_plan_evicts_out_of_config
    (reserved target_mac : String) (allowed_macs : List String) (objects : ObjectTree)
    (p : String) (i : Ifaces) (d : Device1) (c ap : String)
    (hmem : (p, i) ∈ objects) (hdev : i.device = some d) (hconn : d.Connected = true)
    (hfind : (plannerAdapters reserved objects).find?
        (fun q => q.2 == adapterPrefix p) = some (c, ap))
    (hc : c ≠ "")
    (hnt : pyUpper d.Address ≠ pyUpper target_mac)
    (hna : ¬ (allowed_macs.map pyUpper).contains (pyUpper d.Address)) :
    (pyUpper d.Address, c) ∈ (connect_one_plan reserved target_mac allowed_macs objects).evict := by
  apply planDecide_evict_superset
  exact analysis_evicts_mem _ _ _ objects _ p i d c ap hmem hdev hconn hfind hc hnt hna

/-- Concrete object trees used by the closed witnesses below. -/
def adObj (addr : String) : Ifaces := { adapter := some ⟨addr⟩ }

def devObj (addr : String) (conn : Bool) : Ifaces := { device := some ⟨addr, conn, false, false, []⟩ }

/-- Snapshot: reserved hci9, one free adapter hci0, plus an out-of-config
device X connected on hci0. -/
def snapOutOfConfig : ObjectTree :=
  [ ("/org/bluez/hci9", adObj "R0:00"),
    ("/org/bluez/hci0", adObj "A0:00"),
    ("/org/bluez/hci0/dev_XX_09", devObj "XX:09" true) ]

theorem connect_one_plan_evicts_out_of_config_witness :
    ("XX:09", "A0:00") ∈ (connect_one_plan "hci9" "AA:01" ["AA:01"] snapOutOfConfig).evict :=
  connect_one_plan_evicts_out_of_config "hci9" "AA:01" ["AA:01"] snapOutOfConfig
    "/org/bluez/hci0/dev_XX_09" (devObj "XX:09" true) ⟨"XX:09", true, false, false, []⟩
    "A0:00" "/org/bluez/hci0"
    (by decide) rfl rfl (by decide) (by decide) (by decide) (by decide)

/-! ## C5 -/

/-- C5: when the target is connected on more than one non-reserved adapter
(the analysis found controllers `c1 :: c2 :: rest`, in snapshot discovery
order), the planner returns `already_connected` keeping the first such
controller and appends `(target, c)` to the evict list for every other
controller `c`. -/
theorem connect_one_plan_multi_connected
    (reserved target_mac : String) (allowed_macs : List String) (objects : ObjectTree)
    (c1 c2 : String) (rest : List String)
    (h : (planAnalysisOf reserved target_mac allowed_macs objects).tco = c1 :: c2 :: rest) :
    (connect_one_plan reserved target_mac allowed_macs objects).status = "already_connected" ∧
    (connect_one_plan reserved target_mac allowed_macs objects).ctrl = c1 ∧
    (connect_one_plan reserved target_mac allowed_macs objects).evict
      = (planAnalysisOf reserved target_mac allowed_macs objects).disc
        ++ (c2 :: rest).map (fun c => (pyUpper target_mac, c)) ∧
    ∀ c ∈ c2 :: rest,
      (pyUpper target_mac, c) ∈ (connect_one_plan reserved target_mac allowed_macs objects).evict := by
  unfold connect_one_plan planDecide
  rw [h]
  refine ⟨rfl, rfl, rfl, ?_⟩
  intro c hc
  simp only [Decision.evict, List.mem_append]
  right
  exact List.mem_map_of_mem _ hc

/-- Snapshot: target AA:01 connected on both hci0 and hci1. -/
def snapDouble : ObjectTree :=
  [ ("/org/bluez/hci9", adObj "R0:00"),
    ("/org/bluez/hci0", adObj "A0:00"),
    ("/org/bluez/hci1", adObj "A1:00"),
    ("/org/bluez/hci0/dev_AA_01", devObj "AA:01" true),
    ("/org/bluez/hci1/dev_AA_01", devObj "AA:01" true) ]

theorem connect_one_plan_multi_connected_witness :
    (connect_one_plan "hci9" "AA:01" ["AA:01"] snapDouble).status = "already_connected" ∧
    (connect_one_plan "hci9" "AA:01" ["AA:01"] snapDouble).ctrl = "A0:00" ∧
    ("AA:01", "A1:00") ∈ (connect_one_plan "hci9" "AA:01" ["AA:01"] snapDouble).evict := by
  have h := connect_one_plan_multi_connected "hci9" "AA:01" ["AA:01"] snapDouble
    "A0:00" "A1:00" [] (by decide)
  exact ⟨h.1, h.2.1, h.2.2.2 "A1:00" (by decide)⟩

/-! ## C1 -/

/-- C1: when the target is connected nowhere (on no non-reserved adapter),
the planner (i) returns `needs_connection` on the first adapter, in snapshot
iteration order, that is not occupied by a connected in-config speaker;
(ii) if every non-reserved adapter is occupied, it evicts the second
controller of the first in-config speaker connected on more than one adapter
and returns `needs_connection` on that freed controller; (iii) if no such
duplicate occupant exists, it returns status `error`. -/
theorem connect_one_plan_target_nowhere
    (reserved target_mac : String) (allowed_macs : List String) (objects : ObjectTree)
    (h : (planAnalysisOf reserved target_mac allowed_macs objects).tco = []) :
    ((∃ pr ∈ plannerAdapters reserved objects,
        pr.1 ∉ (planAnalysisOf reserved target_mac allowed_macs objects).used) →
      (connect_one_plan reserved target_mac allowed_macs objects).status = "needs_connection" ∧
      ∃ l1 pr l2, plannerAdapters reserved objects = l1 ++ pr :: l2 ∧
        (∀ q ∈ l1, q.1 ∈ (planAnalysisOf reserved target_mac allowed_macs objects).used) ∧
        pr.1 ∉ (planAnalysisOf reserved target_mac allowed_macs objects).used ∧
        (connect_one_plan reserved target_mac allowed_macs objects).ctrl = pr.1) ∧
    ((∀ pr ∈ plannerAdapters reserved objects,
        pr.1 ∈ (planAnalysisOf reserved target_mac allowed_macs objects).used) →
      (∃ pr ∈ (planAnalysisOf reserved target_mac allowed_macs objects).usage,
          1 < pr.2.length) →
      (connect_one_plan reserved target_mac allowed_macs objects).status = "needs_connection" ∧
      ∃ m cs, (m, cs) ∈ (planAnalysisOf reserved target_mac allowed_macs objects).usage ∧
        1 < cs.length ∧
        (connect_one_plan reserved target_mac allowed_macs objects).ctrl = cs.getD 1 "" ∧
        (m, cs.getD 1 "") ∈ (connect_one_plan reserved target_mac allowed_macs objects).evict) ∧
    ((∀ pr ∈ plannerAdapters reserved objects,
        pr.1 ∈ (planAnalysisOf reserved target_mac allowed_macs objects).used) →
      (∀ pr ∈ (planAnalysisOf reserved target_mac allowed_macs objects).usage,
          pr.2.length ≤ 1) →
      (connect_one_plan reserved target_mac allowed_macs objects).status = "error") := by
  unfold connect_one_plan planDecide
  rw [h]
  refine ⟨?_, ?_, ?_⟩
  · rintro ⟨pr, hpr, hfree⟩
    obtain ⟨y, hy⟩ := find?_of_mem
      (fun p => ¬ (planAnalysisOf reserved target_mac allowed_macs objects).used.contains p.1)
      _ pr hpr (by simpa using hfree)
    rw [hy]
    obtain ⟨l1, l2, heq, hl1, hpy⟩ := find?_split _ _ _ hy
    refine ⟨rfl, l1, y, l2, heq, ?_, ?_, rfl⟩
    · intro q hq
      have := hl1 q hq
      simpa using this
    · simpa using hpy
  · intro hall ⟨dup, hdup, hlen⟩
    rcases hfa : (plannerAdapters reserved objects).find?
        (fun p => ¬ (planAnalysisOf reserved target_mac allowed_macs objects).used.contains p.1)
      with _ | pr
    · rw [hfa]
      obtain ⟨y, hy⟩ := find?_of_mem
        (fun p => 1 < p.2.length)
        _ dup hdup (by simpa using hlen)
      rw [hy]
      refine ⟨rfl, y.1, y.2, List.mem_of_find?_eq_some hy, ?_, rfl, by simp⟩
      have := List.find?_some hy
      simpa using this
    · exfalso
      have hmem := List.mem_of_find?_eq_some hfa
      have hp := List.find?_some hfa
      have : pr.1 ∉ (planAnalysisOf reserved target_mac allowed_macs objects).used := by
        simpa using hp
      exact this (hall pr hmem)
  · intro hall hnodup
    rcases hfa : (plannerAdapters reserved objects).find?
        (fun p => ¬ (planAnalysisOf reserved target_mac allowed_macs objects).used.contains p.1)
      with _ | pr
    · rw [hfa]
      rcases hfd : (planAnalysisOf reserved target_mac allowed_macs objects).usage.find?
          (fun p => 1 < p.2.length) with _ | dp
      · rw [hfd]
      · exfalso
        have hmem := List.mem_of_find?_eq_some hfd
        have hp := List.find?_some hfd
        have h1 : 1 < dp.2.length := by simpa using hp
        exact absurd (hnodup dp hmem) (by omega)
    · exfalso
      have hmem := List.mem_of_find?_eq_some hfa
      have hp := List.find?_some hfa
      have : pr.1 ∉ (planAnalysisOf reserved target_mac allowed_macs objects).used := by
        simpa using hp
      exact this (hall pr hmem)

/-- Snapshot: adapters hci0..hci2, AA:01 connected on hci0, target BB:02
connected nowhere. -/
def snapFree : ObjectTree :=
  [ ("/org/bluez/hci9", adObj "R0:00"),
    ("/org/bluez/hci0", adObj "A0:00"),
    ("/org/bluez/hci1", adObj "A1:00"),
    ("/org/bluez/hci2", adObj "A2:00"),
    ("/org/bluez/hci0/dev_AA_01", devObj "AA:01" true) ]

theorem connect_one_plan_target_nowhere_witness :
    (connect_one_plan "hci9" "BB:02" ["AA:01", "BB:02"] snapFree).status = "needs_connection" ∧
    (connect_one_plan "hci9" "BB:02" ["AA:01", "BB:02"] snapFree).ctrl = "A1:00" := by
  have h := connect_one_plan_target_nowhere "hci9" "BB:02" ["AA:01", "BB:02"] snapFree (by decide)
  have hi := h.1 ⟨("A1:00", "/org/bluez/hci1"), by decide, by decide⟩
  exact ⟨hi.1, by decide⟩

/-! ## C7 support: provenance of every controller MAC in the decision -/

theorem dictInsert_mem (k v : String) :
    ∀ (l : List (String × String)) (pr : String × String),
      pr ∈ dictInsert k v l → pr = (k, v) ∨ pr ∈ l := by
  intro l
  induction l with
  | nil => intro pr hpr; simp [dictInsert] at hpr; exact Or.inl (by simp [hpr])
  | cons x t ih =>
    intro pr hpr
    unfold dictInsert at hpr
    split at hpr
    · rcases List.mem_cons.1 hpr with rfl | hpr
      · exact Or.inl rfl
      · exact Or.inr (List.mem_cons_of_mem _ hpr)
    · rcases List.mem_cons.1 hpr with rfl | hpr
      · exact Or.inr (List.mem_cons_self _ _)
      · rcases ih pr hpr with h | h
        · exact Or.inl h
        · exact Or.inr (List.mem_cons_of_mem _ h)

/-- Every entry of the planner's adapter map comes from a non-reserved
`Adapter1` object of the snapshot: its key is that adapter's uppercased
address and its value is that adapter's object path. -/
theorem plannerAdapters_mem (reserved : String) (objects : ObjectTree)
    (pr : String × String) (hpr : pr ∈ plannerAdapters reserved objects) :
    ∃ p i a, (p, i) ∈ objects ∧ i.adapter = some a ∧ hciName p ≠ reserved ∧
      pr.1 = pyUpper a.Address ∧ pr.2 = p := by
  have main : ∀ (l : ObjectTree) (acc : List (String × String)),
      pr ∈ l.foldl (fun acc pi =>
        match pi.2.adapter with
        | some a => if hciName pi.1 = reserved then acc
                    else dictInsert (pyUpper a.Address) pi.1 acc
        | none => acc) acc →
      pr ∈ acc ∨ ∃ p i a, (p, i) ∈ l ∧ i.adapter = some a ∧ hciName p ≠ reserved ∧
        pr.1 = pyUpper a.Address ∧ pr.2 = p := by
    intro l
    induction l with
    | nil => intro acc h; exact Or.inl h
    | cons x xs ih =>
      intro acc h
      rw [List.foldl_cons] at h
      rcases ih _ h with hacc | ⟨p, i, a, hmem, hi, hcir, h1, h2⟩
      · split at hacc
        · rename_i a hx
          split at hacc
          · exact Or.inl hacc
          · rename_i hr
            rcases dictInsert_mem _ _ _ _ hacc with rfl | hacc
            · exact Or.inr ⟨x.1, x.2, a, List.mem_cons_self _ _, hx, hr, rfl, rfl⟩
            · exact Or.inl hacc
        · exact Or.inl hacc
      · exact Or.inr ⟨p, i, a, List.mem_cons_of_mem _ hmem, hi, hcir, h1, h2⟩
  rcases main objects [] hpr with h | h
  · simp at h
  · exact h

theorem getD_mem {α : Type _} : ∀ (l : List α) (n : Nat) (d : α), n < l.length → l.getD n d ∈ l := by
  intro l
  induction l with
  | nil => intro n d h; simp at h
  | cons x t ih =>
    intro n d h
    cases n with
    | zero => simp
    | succ m =>
      have : m < t.length := by simpa using h
      simpa using Or.inr (ih m d this)

theorem usageAppend_mem (k v : String) :
    ∀ (u : List (String × List String)) (pr : String × List String),
      pr ∈ usageAppend k v u → ∀ c ∈ pr.2, c = v ∨ ∃ q ∈ u, c ∈ q.2 := by
  intro u
  induction u with
  | nil =>
    intro pr hpr c hc
    simp only [usageAppend, List.mem_singleton] at hpr
    subst hpr
    simp only [List.mem_singleton] at hc
    exact Or.inl hc
  | cons x t ih =>
    intro pr hpr c hc
    unfold usageAppend at hpr
    split at hpr
    · rcases List.mem_cons.1 hpr with rfl | hpr
      · rcases List.mem_append.1 hc with hc | hc
        · exact Or.inr ⟨x, List.mem_cons_self _ _, hc⟩
        · exact Or.inl (List.mem_singleton.1 hc)
      · exact Or.inr ⟨pr, List.mem_cons_of_mem _ hpr, hc⟩
    · rcases List.mem_cons.1 hpr with rfl | hpr
      · exact Or.inr ⟨x, List.mem_cons_self _ _, hc⟩
      · rcases ih pr hpr c hc with h | ⟨q, hq, hcq⟩
        · exact Or.inl h
        · exact Or.inr ⟨q, List.mem_cons_of_mem _ hq, hcq⟩

theorem recordTarget_tco (ctrl : String) (acc : Analysis) :
    (recordTarget ctrl acc).tco = acc.tco ++ [ctrl] := rfl

theorem recordEvict_disc (dev ctrl : String) (acc : Analysis) :
    (recordEvict dev ctrl acc).disc = acc.disc ++ [(dev, ctrl)] := rfl

theorem recordUsed_used (ctrl : String) (acc : Analysis) :
    (recordUsed ctrl acc).used = ctrl :: acc.used := rfl

/-- Invariant: every controller MAC recorded anywhere in an analysis
accumulator is a key of the adapter map. -/
def CtrlsFrom (keys : List String) (a : Analysis) : Prop :=
  (∀ pr ∈ a.disc, pr.2 ∈ keys) ∧ (∀ c ∈ a.tco, c ∈ keys) ∧
  (∀ pr ∈ a.usage, ∀ c ∈ pr.2, c ∈ keys) ∧ (∀ c ∈ a.used, c ∈ keys)

theorem withUsage_ctrls (al : List String) (dev ctrl : String) (acc : Analysis)
    (keys : List String) (hc : ctrl ∈ keys) (h : CtrlsFrom keys acc) :
    CtrlsFrom keys (withUsage al dev ctrl acc) := by
  obtain ⟨h1, h2, h3, h4⟩ := h
  unfold withUsage
  split
  · refine ⟨h1, h2, ?_, h4⟩
    intro pr hpr c hcc
    rcases usageAppend_mem dev ctrl acc.usage pr hpr c hcc with rfl | ⟨q, hq, hcq⟩
    · exact hc
    · exact h3 q hq c hcq
  · exact ⟨h1, h2, h3, h4⟩

theorem analyzeStep_ctrls (ad : List (String × String)) (t : String) (al : List String)
    (acc : Analysis) (pi : String × Ifaces)
    (h : CtrlsFrom (ad.map Prod.fst) acc) :
    CtrlsFrom (ad.map Prod.fst) (analyzeStep ad t al acc pi) := by
  unfold analyzeStep
  split
  · exact h
  · split
    · exact h
    · rename_i ctrl snd hfa
      have hkey : ctrl ∈ ad.map Prod.fst :=
        List.mem_map_of_mem _ (List.mem_of_find?_eq_some hfa)
      split
      · exact h
      · split
        · dsimp only
          split
          · obtain ⟨h1, h2, h3, h4⟩ := withUsage_ctrls al _ _ acc _ hkey h
            refine ⟨h1, ?_, h3, h4⟩
            intro c hc
            rw [recordTarget_tco] at hc
            rcases List.mem_append.1 hc with hc | hc
            · exact h2 c hc
            · rw [List.mem_singleton.1 hc]; exact hkey
          · split
            · obtain ⟨h1, h2, h3, h4⟩ := withUsage_ctrls al _ _ acc _ hkey h
              refine ⟨?_, h2, h3, h4⟩
              intro pr hpr
              rw [recordEvict_disc] at hpr
              rcases List.mem_append.1 hpr with hm | hm
              · exact h1 pr hm
              · rw [List.mem_singleton.1 hm]; exact hkey
            · obtain ⟨h1, h2, h3, h4⟩ := withUsage_ctrls al _ _ acc _ hkey h
              refine ⟨h1, h2, h3, ?_⟩
              intro c hc
              rw [recordUsed_used] at hc
              rcases List.mem_cons.1 hc with rfl | hc
              · exact hkey
              · exact h4 c hc
        · exact h

theorem plannerAnalysis_ctrls (ad : List (String × String)) (t : String) (al : List String)
    (objects : ObjectTree) :
    CtrlsFrom (ad.map Prod.fst) (plannerAnalysis ad t al objects) := by
  have main : ∀ (l : ObjectTree) (acc : Analysis), CtrlsFrom (ad.map Prod.fst) acc →
      CtrlsFrom (ad.map Prod.fst) (l.foldl (analyzeStep ad t al) acc) := by
    intro l
    induction l with
    | nil => exact fun acc h => h
    | cons x xs ih =>
      intro acc h
      exact ih _ (analyzeStep_ctrls ad t al acc x h)
  exact main objects _ ⟨by simp, by simp, by simp, by simp⟩

/-- Every controller MAC named by the final decision (the chosen controller,
unless it is the empty error marker, and the adapter of every evict pair) is
a key of the adapter map. -/
theorem planDecide_ctrls (ad : List (String × String)) (t : String) (a : Analysis)
    (h : CtrlsFrom (ad.map Prod.fst) a) :
    ((planDecide ad t a).ctrl ∈ ad.map Prod.fst ∨ (planDecide ad t a).ctrl = "") ∧
    (∀ pr ∈ (planDecide ad t a).evict, pr.2 ∈ ad.map Prod.fst) := by
  obtain ⟨h1, h2, h3, h4⟩ := h
  unfold planDecide
  split
  · rename_i c1 c2 rest heq
    constructor
    · exact Or.inl (h2 c1 (by rw [heq]; exact List.mem_cons_self _ _))
    · intro pr hpr
      rcases List.mem_append.1 hpr with hm | hm
      · exact h1 pr hm
      · obtain ⟨c, hc, rfl⟩ := List.mem_map.1 hm
        exact h2 c (by rw [heq]; exact List.mem_cons_of_mem _ hc)
  · rename_i controller heq
    have hctl : controller ∈ ad.map Prod.fst :=
      h2 controller (by rw [heq]; exact List.mem_cons_self _ _)
    split
    · split
      · rename_i cp hcp
        constructor
        · exact Or.inl (List.mem_map_of_mem _ (List.mem_of_find?_eq_some hcp))
        · intro pr hpr
          rcases List.mem_append.1 hpr with hm | hm
          · exact h1 pr hm
          · rw [List.mem_singleton.1 hm]; exact hctl
      · split
        · rename_i dp hdp
          have hlen : 1 < dp.2.length := by simpa using List.find?_some hdp
          have hdm : dp.2.getD 1 "" ∈ ad.map Prod.fst :=
            h3 dp (List.mem_of_find?_eq_some hdp) _ (getD_mem dp.2 1 "" hlen)
          constructor
          · exact Or.inl hdm
          · intro pr hpr
            rcases List.mem_append.1 hpr with hm | hm
            · rcases List.mem_append.1 hm with hm2 | hm2
              · exact h1 pr hm2
              · rw [List.mem_singleton.1 hm2]; exact hctl
            · rw [List.mem_singleton.1 hm]; exact hdm
        · constructor
          · exact Or.inr rfl
          · intro pr hpr
            rcases List.mem_append.1 hpr with hm | hm
            · exact h1 pr hm
            · rw [List.mem_singleton.1 hm]; exact hctl
    · constructor
      · exact Or.inl hctl
      · exact h1
  · split
    · rename_i cp hcp
      constructor
      · exact Or.inl (List.mem_map_of_mem _ (List.mem_of_find?_eq_some hcp))
      · exact h1
    · split
      · rename_i dp hdp
        have hlen : 1 < dp.2.length := by simpa using List.find?_some hdp
        have hdm : dp.2.getD 1 "" ∈ ad.map Prod.fst :=
          h3 dp (List.mem_of_find?_eq_some hdp) _ (getD_mem dp.2 1 "" hlen)
        constructor
        · exact Or.inl hdm
        · intro pr hpr
          rcases List.mem_append.1 hpr with hm | hm
          · exact h1 pr hm
          · rw [List.mem_singleton.1 hm]; exact hdm
      · constructor
        · exact Or.inr rfl
        · exact h1

/-- Folding over a list is unchanged when a middle element is a no-op for
the fold function. -/
theorem foldl_middle_skip {α β : Type _} (f : β → α → β) (x : α) (hx : ∀ b, f b x = b) :
    ∀ (l1 l2 : List α) (init : β),
      (l1 ++ x :: l2).foldl f init = (l1 ++ l2).foldl f init := by
  intro l1 l2 init
  rw [List.foldl_append, List.foldl_append, List.foldl_cons, hx]

/-- A device whose adapter prefix matches no recognised adapter path is
skipped by the analysis loop. -/
theorem analyzeStep_skip (ad : List (String × String)) (t : String) (al : List String)
    (acc : Analysis) (p : String) (i : Ifaces)
    (hfind : ad.find? (fun q => q.2 == adapterPrefix p) = none) :
    analyzeStep ad t al acc (p, i) = acc := by
  unfold analyzeStep
  rcases hd : i.device with _ | d
  · simp [hd]
  · simp [hd, hfind]

/-! ## C7 -/

/-- C7: the planner never returns the reserved adapter as the chosen
controller (given that the reserved adapter's address `resAddr` is not also
the address of a non-reserved adapter, and is nonempty), never names it in
an eviction pair, and ignores device entries whose adapter prefix belongs to
no non-reserved adapter — in particular devices under the reserved adapter. -/
theorem connect_one_plan_reserved_excluded
    (reserved target_mac : String) (allowed_macs : List String) (objects : ObjectTree)
    (resAddr : String)
    (hres : ∀ q ∈ objects, hciName q.1 ≠ reserved →
        (q.2.adapter.map fun a => pyUpper a.Address) ≠ some resAddr)
    (hne : resAddr ≠ "") :
    (connect_one_plan reserved target_mac allowed_macs objects).ctrl ≠ resAddr ∧
    (∀ pr ∈ (connect_one_plan reserved target_mac allowed_macs objects).evict,
        pr.2 ≠ resAddr) ∧
    (∀ l1 l2 p i d, objects = l1 ++ (p, i) :: l2 → i.adapter = none → i.device = some d →
      (∀ q ∈ l1 ++ l2, q.2.adapter ≠ none → hciName q.1 ≠ reserved → q.1 ≠ adapterPrefix p) →
      connect_one_plan reserved target_mac allowed_macs (l1 ++ l2)
        = connect_one_plan reserved target_mac allowed_macs objects) := by
  have hkeys : ∀ k ∈ (plannerAdapters reserved objects).map Prod.fst, k ≠ resAddr := by
    intro k hk
    obtain ⟨pr, hpr, rfl⟩ := List.mem_map.1 hk
    obtain ⟨p, i, a, hmem, hi, hr, h1, _⟩ := plannerAdapters_mem reserved objects pr hpr
    rw [h1]
    intro hEq
    exact hres (p, i) hmem hr (by simp [hi, hEq])
  have hctrls := planDecide_ctrls (plannerAdapters reserved objects) (pyUpper target_mac)
      (planAnalysisOf reserved target_mac allowed_macs objects)
      (plannerAnalysis_ctrls (plannerAdapters reserved objects) (pyUpper target_mac)
        (allowed_macs.map pyUpper) objects)
  refine ⟨?_, ?_, ?_⟩
  · unfold connect_one_plan
    rcases hctrls.1 with hin | hempty
    · exact hkeys _ hin
    · rw [hempty]
      exact fun hEq => hne hEq.symm
  · unfold connect_one_plan
    intro pr hpr
    exact hkeys _ (hctrls.2 pr hpr)
  · intro l1 l2 p i d hobj hadp hdev hpaths
    subst hobj
    have had : plannerAdapters reserved (l1 ++ (p, i) :: l2)
        = plannerAdapters reserved (l1 ++ l2) := by
      unfold plannerAdapters
      exact foldl_middle_skip _ _ (fun acc => by simp [hadp]) l1 l2 []
    have hfind : (plannerAdapters reserved (l1 ++ l2)).find?
        (fun q => q.2 == adapterPrefix p) = none := by
      apply List.find?_eq_none.2
      intro q hq
      obtain ⟨pp, ii, _, hmem, hii, hrr, _, h2⟩ := plannerAdapters_mem _ _ q hq
      simp only [beq_iff_eq, decide_eq_true_eq]
      rw [h2]
      exact hpaths (pp, ii) hmem (by simp [hii]) hrr
    have hana : plannerAnalysis (plannerAdapters reserved (l1 ++ l2)) (pyUpper target_mac)
        (allowed_macs.map pyUpper) (l1 ++ (p, i) :: l2)
        = plannerAnalysis (plannerAdapters reserved (l1 ++ l2)) (pyUpper target_mac)
          (allowed_macs.map pyUpper) (l1 ++ l2) := by
      unfold plannerAnalysis
      exact foldl_middle_skip _ _
        (fun acc => analyzeStep_skip _ _ _ acc p i hfind) l1 l2 _
    unfold connect_one_plan planAnalysisOf
    rw [had, hana]

/-- Snapshot: reserved adapter hci9 (address R0:00), one ordinary adapter,
and a device connected under the reserved adapter. -/
def snapReserved : ObjectTree :=
  [ ("/org/bluez/hci9", adObj "R0:00"),
    ("/org/bluez/hci0", adObj "A0:00"),
    ("/org/bluez/hci9/dev_PP_77", devObj "PP:77" true) ]

theorem connect_one_plan_reserved_excluded_witness :
    (connect_one_plan "hci9" "AA:01" ["AA:01"] snapReserved).ctrl ≠ "R0:00" ∧
    connect_one_plan "hci9" "AA:01" ["AA:01"]
        [("/org/bluez/hci9", adObj "R0:00"), ("/org/bluez/hci0", adObj "A0:00")]
      = connect_one_plan "hci9" "AA:01" ["AA:01"] snapReserved := by
  have h := connect_one_plan_reserved_excluded "hci9" "AA:01" ["AA:01"] snapReserved
    "R0:00" (by decide) (by decide)
  refine ⟨h.1, ?_⟩
  exact h.2.2 [("/org/bluez/hci9", adObj "R0:00"), ("/org/bluez/hci0", adObj "A0:00")] []
    "/org/bluez/hci9/dev_PP_77" (devObj "PP:77" true) ⟨"PP:77", true, false, false, []⟩
    rfl rfl rfl (by decide)

/-! ## Handshake FSM (`_try_reconnect` in connection_service.py)

The FSM's external calls (discovery wait, pair, connect, loopback creation)
are modelled by boolean outcome oracles indexed by how many calls of that
kind already happened; an explicit fuel argument models the (possibly
non-terminating) `while` loop, and every bus/audio call and notification is
recorded in an event trace in program order. -/

/-- The `state` variable of `_try_reconnect`. -/
inductive FsmState where
  | run_discovery | pairing | trust | connect | already_connected
deriving Repr, DecidableEq

/-- Outcome oracles for the FSM's external calls. -/
structure Env where
  discover : Nat → Bool
  pairRes : Nat → Bool
  connectRes : Nat → Bool
  loopbackRes : Nat → Bool

/-- Counters of how many external calls of each kind happened so far. -/
structure Ctrs where
  disc : Nat
  pairC : Nat
  conn : Nat
  loopb : Nat
deriving Repr, DecidableEq

/-- Events of one FSM run, in program order. -/
inductive Ev where
  | notifyStatus (phase : String)
  | notifyError (phase : String)
  | discoveryWait (ok : Bool)
  | pairCall (ok : Bool)
  | removeDevice
  | trustCall
  | connectCall (ok : Bool)
  | connectProfileCall
  | createLoopback (ok : Bool)
deriving Repr, DecidableEq

/-- How one FSM run ended. -/
inductive FsmRes where
  | success | loopbackFailed | discoveryTimeout | exhausted | outOfFuel
deriving Repr, DecidableEq

/-- The `while attempt < max_retry` loop of `_try_reconnect` (max_retry = 3).
Each iteration first sends the `fsm_state` status notification, then runs the
handler of the current state, exactly as the Python code does. A state with
no handler (`already_connected`) loops forever, which the fuel makes visible
as `outOfFuel`. -/
def fsmLoop (env : Env) : Nat → FsmState → Nat → Ctrs → List Ev × FsmRes
  | 0, _, _, _ => ([], .outOfFuel)
  | fuel+1, st, att, c =>
    if att < 3 then
      match st with
      | .run_discovery =>
        if env.discover c.disc then
          let r := fsmLoop env fuel .pairing att { c with disc := c.disc + 1 }
          (Ev.notifyStatus "fsm_state" :: Ev.notifyStatus "discovery_start" ::
             Ev.discoveryWait true :: Ev.notifyStatus "discovery_complete" :: r.1, r.2)
        else
          ([Ev.notifyStatus "fsm_state", Ev.notifyStatus "discovery_start",
            Ev.discoveryWait false, Ev.notifyError "discovery_timeout"], .discoveryTimeout)
      | .pairing =>
        if env.pairRes c.pairC then
          let r := fsmLoop env fuel .trust att { c with pairC := c.pairC + 1 }
          (Ev.notifyStatus "fsm_state" :: Ev.notifyStatus "pairing_start" ::
             Ev.pairCall true :: Ev.notifyStatus "pairing_success" :: r.1, r.2)
        else
          let r := fsmLoop env fuel .run_discovery (att + 1) { c with pairC := c.pairC + 1 }
          (Ev.notifyStatus "fsm_state" :: Ev.notifyStatus "pairing_start" ::
             Ev.pairCall false :: Ev.removeDevice :: Ev.notifyError "pairing_failed" :: r.1, r.2)
      | .trust =>
        let r := fsmLoop env fuel .connect att c
        (Ev.notifyStatus "fsm_state" :: Ev.trustCall :: Ev.notifyStatus "trusting" :: r.1, r.2)
      | .connect =>
        if env.connectRes c.conn then
          if env.loopbackRes c.loopb then
            ([Ev.notifyStatus "fsm_state", Ev.notifyStatus "connect_start",
              Ev.connectCall true, Ev.connectProfileCall, Ev.notifyStatus "connect_success",
              Ev.createLoopback true], .success)
          else
            ([Ev.notifyStatus "fsm_state", Ev.notifyStatus "connect_start",
              Ev.connectCall true, Ev.connectProfileCall, Ev.notifyStatus "connect_success",
              Ev.createLoopback false,
              Ev.notifyError "loopback creation failed, click connect again"], .loopbackFailed)
        else
          let r := fsmLoop env fuel .pairing (att + 1) { c with conn := c.conn + 1 }
          (Ev.notifyStatus "fsm_state" :: Ev.notifyStatus "connect_start" ::
             Ev.connectCall false :: Ev.notifyError "connect_failed" :: r.1, r.2)
      | .already_connected =>
        let r := fsmLoop env fuel .already_connected att c
        (Ev.notifyStatus "fsm_state" :: r.1, r.2)
    else ([], .exhausted)

/-- A retry-consuming attempt: a failed pairing call or a failed connect
call (they share the single `attempt` budget). -/
def retryCount (tr : List Ev) : Nat :=
  tr.countP (fun e => e == Ev.pairCall false || e == Ev.connectCall false)

theorem retryCount_nil : retryCount [] = 0 := rfl

theorem retryCount_cons (e : Ev) (tr : List Ev) :
    retryCount (e :: tr)
      = retryCount tr + (if e = Ev.pairCall false ∨ e = Ev.connectCall false then 1 else 0) := by
  unfold retryCount
  rw [List.countP_cons]
  congr 1
  by_cases h : e = Ev.pairCall false ∨ e = Ev.connectCall false
  · rw [if_pos h]
    rcases h with rfl | rfl <;> simp
  · rw [if_neg h]
    push_neg at h
    simp [beq_iff_eq, h.1, h.2]

/-- The shared retry budget: starting at attempt `att ≤ 3`, a run consumes at
most `3 - att` retries, whatever the oracle outcomes and fuel. -/
theorem fsmLoop_retry_bound (env : Env) :
    ∀ (fuel : Nat) (st : FsmState) (att : Nat) (c : Ctrs), att ≤ 3 →
      retryCount (fsmLoop env fuel st att c).1 ≤ 3 - att := by
  intro fuel
  induction fuel with
  | zero => intro st att c _; simp [fsmLoop, retryCount]
  | succ n ih =>
    intro st att c hatt
    unfold fsmLoop
    by_cases hlt : att < 3
    · rw [if_pos hlt]
      rcases st with _ | _ | _ | _ | _
      · by_cases hd : env.discover c.disc
        · rw [if_pos hd]
          have := ih .pairing att { c with disc := c.disc + 1 } hatt
          simp [retryCount_cons]
          omega
        · rw [if_neg hd]
          simp [retryCount_cons, retryCount_nil]
      · by_cases hp : env.pairRes c.pairC
        · rw [if_pos hp]
          have := ih .trust att { c with pairC := c.pairC + 1 } hatt
          simp [retryCount_cons]
          omega
        · rw [if_neg hp]
          have := ih .run_discovery (att + 1) { c with pairC := c.pairC + 1 } (by omega)
          simp [retryCount_cons]
          omega
      · have := ih .connect att c hatt
        simp [retryCount_cons]
        omega
      · by_cases hc : env.connectRes c.conn
        · rw [if_pos hc]
          by_cases hl : env.loopbackRes c.loopb
          · rw [if_pos hl]
            simp [retryCount_cons, retryCount_nil]
          · rw [if_neg hl]
            simp [retryCount_cons, retryCount_nil]
        · rw [if_neg hc]
          have := ih .pairing (att + 1) { c with conn := c.conn + 1 } (by omega)
          simp [retryCount_cons]
          omega
      · have := ih .already_connected att c hatt
        simp [retryCount_cons]
        omega
    · rw [if_neg hlt]
      simp [retryCount]

/-- Oracle for the C3 scenario: pairing fails on its first two calls and
succeeds from the third on; discovery, connect and loopback always succeed. -/
def envPairTwiceFail : Env :=
  { discover := fun _ => true
    pairRes := fun n => decide (2 ≤ n)
    connectRes := fun _ => true
    loopbackRes := fun _ => true }

/-- Oracle whose calls all fail. -/
def envAllFail : Env :=
  { discover := fun _ => false
    pairRes := fun _ => false
    connectRes := fun _ => false
    loopbackRes := fun _ => false }

/-! ## C3 -/

/-- C3: (a) at most 3 retry-consuming attempts (failed pairing or connect
calls, sharing one budget) occur in a whole FSM walk, for every oracle and
fuel; (b) each pairing failure performs a `remove_device` call and returns
the FSM to `run_discovery`, consuming exactly one retry; (c) in the scenario
where pairing fails exactly twice and then succeeds, the walk ends in
terminal success with exactly two `remove_device` calls, both before the
final (successful) pair call. -/
theorem fsm_retry_budget_shared :
    (∀ (env : Env) (fuel : Nat) (st : FsmState) (c : Ctrs),
       retryCount (fsmLoop env fuel st 0 c).1 ≤ 3) ∧
    (∀ (env : Env) (fuel att : Nat) (c : Ctrs), att < 3 → env.pairRes c.pairC = false →
       fsmLoop env (fuel+1) .pairing att c
         = (Ev.notifyStatus "fsm_state" :: Ev.notifyStatus "pairing_start" ::
            Ev.pairCall false :: Ev.removeDevice :: Ev.notifyError "pairing_failed" ::
            (fsmLoop env fuel .run_discovery (att + 1) { c with pairC := c.pairC + 1 }).1,
            (fsmLoop env fuel .run_discovery (att + 1) { c with pairC := c.pairC + 1 }).2)) ∧
    ((fsmLoop envPairTwiceFail 20 .run_discovery 0 ⟨0, 0, 0, 0⟩).2 = FsmRes.success ∧
     (fsmLoop envPairTwiceFail 20 .run_discovery 0 ⟨0, 0, 0, 0⟩).1.count Ev.removeDevice = 2 ∧
     ((fsmLoop envPairTwiceFail 20 .run_discovery 0 ⟨0, 0, 0, 0⟩).1.reverse.takeWhile
        (fun e => !(e == Ev.pairCall true))).count Ev.removeDevice = 0) := by
  refine ⟨?_, ?_, ?_⟩
  · intro env fuel st c
    simpa using fsmLoop_retry_bound env fuel st 0 c (by omega)
  · intro env fuel att c hatt hp
    conv_lhs => unfold fsmLoop
    rw [if_pos hatt]
    dsimp only
    rw [hp]
    simp
  · exact ⟨by decide, by decide, by decide⟩

theorem fsm_retry_budget_shared_witness :
    fsmLoop envAllFail 1 .pairing 0 ⟨0, 0, 0, 0⟩
      = ([Ev.notifyStatus "fsm_state", Ev.notifyStatus "pairing_start", Ev.pairCall false,
          Ev.removeDevice, Ev.notifyError "pairing_failed"], FsmRes.outOfFuel) := by
  have h := fsm_retry_budget_shared.2.1 envAllFail 0 0 ⟨0, 0, 0, 0⟩ (by decide) (by decide)
  rw [h]
  rfl

/-! ## C10: `pair_device_dbus` and the AlreadyExists escape hatch -/

/-- `needle` is a leading segment of `hay`. -/
def charsStart : List Char → List Char → Bool
  | [], _ => true
  | _ :: _, [] => false
  | a :: as, b :: bs => a = b && charsStart as bs

/-- `needle` occurs somewhere inside `hay`. -/
def charsHas : List Char → List Char → Bool
  | needle, [] => needle.isEmpty
  | needle, c :: rest => charsStart needle (c :: rest) || charsHas needle rest

/-- Models Python `"sub" in s` (substring test). -/
def strContains (sub s : String) : Bool := charsHas sub.data s.data

/-- `pair_device_dbus` from `syncsonic_ble/core/bt_helpers.py`. `outcome` is
`none` when `device.Pair()` returned normally and `some msg` when it raised
an exception whose string form is `msg`. -/
def pair_device_dbus (outcome : Option String) : Bool :=
  match outcome with
  | none => true
  | some e => if strContains "AlreadyExists" e then true else false

/-- C10: `pair_device_dbus` returns True when the Pair error message contains
"AlreadyExists" and False for every other exception; consequently an FSM pair
step whose underlying Pair raises AlreadyExists proceeds to `trust` without
consuming a retry. -/
theorem pair_device_dbus_already_exists (m : String) :
    (strContains "AlreadyExists" m = true → pair_device_dbus (some m) = true) ∧
    (strContains "AlreadyExists" m = false → pair_device_dbus (some m) = false) ∧
    (∀ (env : Env) (fuel att : Nat) (c : Ctrs), att < 3 →
       env.pairRes c.pairC = pair_device_dbus (some m) →
       strContains "AlreadyExists" m = true →
       fsmLoop env (fuel+1) .pairing att c
         = (Ev.notifyStatus "fsm_state" :: Ev.notifyStatus "pairing_start" ::
            Ev.pairCall true :: Ev.notifyStatus "pairing_success" ::
            (fsmLoop env fuel .trust att { c with pairC := c.pairC + 1 }).1,
            (fsmLoop env fuel .trust att { c with pairC := c.pairC + 1 }).2)) := by
  refine ⟨?_, ?_, ?_⟩
  · intro h
    simp [pair_device_dbus, h]
  · intro h
    simp [pair_device_dbus, h]
  · intro env fuel att c hatt hp hm
    have hptrue : env.pairRes c.pairC = true := by
      rw [hp]
      simp [pair_device_dbus, hm]
    conv_lhs => unfold fsmLoop
    rw [if_pos hatt]
    dsimp only
    rw [hptrue]
    simp

/-- Oracle whose calls all succeed. -/
def envAllOk : Env :=
  { discover := fun _ => true
    pairRes := fun _ => true
    connectRes := fun _ => true
    loopbackRes := fun _ => true }

theorem pair_device_dbus_already_exists_witness :
    pair_device_dbus (some "org.bluez.Error.AlreadyExists") = true ∧
    fsmLoop envAllOk 1 .pairing 0 ⟨0, 0, 0, 0⟩
      = ([Ev.notifyStatus "fsm_state", Ev.notifyStatus "pairing_start", Ev.pairCall true,
          Ev.notifyStatus "pairing_success"], FsmRes.outOfFuel) := by
  have h := pair_device_dbus_already_exists "org.bluez.Error.AlreadyExists"
  refine ⟨h.1 (by decide), ?_⟩
  have h2 := h.2.2 envAllOk 0 0 ⟨0, 0, 0, 0⟩ (by decide) (by decide) (by decide)
  rw [h2]
  rfl

/-! ## Connection Service worker (`_run_worker` in connection_service.py)

The worker's `CONNECT_ONE` handler: expected-set update, planning, eviction
execution, and the three status branches. External outcomes are oracles;
every bus/audio call and notification is an event. -/

/-- Models Python `str.lower()`. -/
def pyLower (s : String) : String := ⟨s.data.map Char.toLower⟩

/-- `_analyze_device`, applied to the `Device1` properties found at the
chosen adapter's device path (`none` when the path is absent). -/
def analyze_device (dev : Option Device1) : FsmState :=
  match dev with
  | none => .run_discovery
  | some d =>
    let has_audio := d.UUIDs.any (fun u => strContains "110b" (pyLower u))
    if d.Connected ∧ has_audio then .already_connected
    else if ¬ d.Paired then .pairing
    else if ¬ d.Trusted then .trust
    else if d.Paired ∧ d.Trusted ∧ ¬ d.Connected then .connect
    else .run_discovery

/-- `_try_reconnect`: sends the `fsm_start` notification, classifies the
device from a fresh snapshot, then runs the retry loop. -/
def tryReconnect (env : Env) (fuel : Nat) (dev : Option Device1) : List Ev × FsmRes :=
  let r := fsmLoop env fuel (analyze_device dev) 0 ⟨0, 0, 0, 0⟩
  (Ev.notifyStatus "fsm_start" :: r.1, r.2)

/-- Python `set.add` on a membership-list. -/
def pyAddSet (x : String) (s : List String) : List String :=
  if s.contains x then s else x :: s

/-- Python `set.remove` on a membership-list. -/
def pyRemoveSet (x : String) (s : List String) : List String :=
  s.filter (fun y => y ≠ x)

/-- The state owned by the Connection Service: the Expected Set and the
Loopback Registry (`self.expected`, `self.loopbacks`). -/
structure SvcState where
  expected : List String
  loopbacks : List String
deriving Repr, DecidableEq

/-- Worker events, in program order. -/
inductive WEv where
  | busDisconnect (devMac ctrlMac : String) (ok : Bool)
  | removeLoopbackRoute (mac : String)
  | connectProfileA2dp (mac : String)
  | notifyConnectSuccess (mac : String)
  | createLoopbackRoute (mac : String) (ok : Bool)
  | fsm (e : Ev)
deriving Repr, DecidableEq

/-- `disconnect_device_dbus` from bt_helpers.py: `Disconnect()` then
`remove_loopback_for_device(mac)`; an exception in `Disconnect` skips the
route removal and yields False. The registry is *not* touched here. -/
def disconnect_device_dbus (ok : Bool) (devMac ctrlMac : String) : List WEv × Bool :=
  if ok then ([.busDisconnect devMac ctrlMac true, .removeLoopbackRoute devMac], true)
  else ([.busDisconnect devMac ctrlMac false], false)

/-- The worker's eviction loop over the planner's disconnect list. -/
def runEvictions (dcOk : Nat → Bool) : List (String × String) → Nat → List WEv
  | [], _ => []
  | (dev, ctrl) :: rest, n =>
    (disconnect_device_dbus (dcOk n) dev ctrl).1 ++ runEvictions dcOk rest (n + 1)

/-- The `CONNECT_ONE` branch of `_run_worker`. `dcOk` gives the outcome of
each `Disconnect` bus call, `lbOk` the outcome of `create_loopback` on the
`already_connected` path, `fenv`/`fuel` drive the handshake FSM and
`devSnap` is the device snapshot `_analyze_device` sees. -/
def workerConnectOne (reserved : String) (dcOk : Nat → Bool) (lbOk : Bool)
    (fenv : Env) (fuel : Nat) (devSnap : Option Device1)
    (st : SvcState) (mac_raw : String) (allowed_raw : List String)
    (objects : ObjectTree) : SvcState × List WEv :=
  let mac := pyUpper mac_raw
  let allow := allowed_raw.map pyUpper
  let expected1 := pyAddSet mac st.expected
  let plan := connect_one_plan reserved mac allow objects
  let evs := runEvictions dcOk plan.evict 0
  if plan.status = "already_connected" then
    let evs1 := evs ++ [WEv.connectProfileA2dp mac, WEv.notifyConnectSuccess mac]
    if ¬ st.loopbacks.contains mac then
      if lbOk then
        (⟨expected1, pyAddSet mac st.loopbacks⟩, evs1 ++ [WEv.createLoopbackRoute mac true])
      else (⟨expected1, st.loopbacks⟩, evs1 ++ [WEv.createLoopbackRoute mac false])
    else (⟨expected1, st.loopbacks⟩, evs1)
  else if plan.status = "needs_connection" ∧ plan.ctrl ≠ "" then
    let r := tryReconnect fenv fuel devSnap
    let lb := if r.2 = FsmRes.success then pyAddSet mac st.loopbacks else st.loopbacks
    (⟨expected1, lb⟩, evs ++ r.1.map WEv.fsm)
  else
    (⟨expected1, st.loopbacks⟩, evs)

/-- The notifications among a worker event trace (`send_notification` calls,
with `self._char` injected). -/
def notificationsOf (evs : List WEv) : List WEv :=
  evs.filter (fun e =>
    match e with
    | .notifyConnectSuccess _ => true
    | .fsm (Ev.notifyStatus _) => true
    | .fsm (Ev.notifyError _) => true
    | _ => false)

theorem notificationsOf_runEvictions (dcOk : Nat → Bool) :
    ∀ (l : List (String × String)) (n : Nat), notificationsOf (runEvictions dcOk l n) = [] := by
  intro l
  induction l with
  | nil => intro n; rfl
  | cons x rest ih =>
    intro n
    obtain ⟨dev, ctrl⟩ := x
    unfold runEvictions disconnect_device_dbus notificationsOf
    rw [List.filter_append]
    by_cases h : dcOk n
    · rw [if_pos h]
      have := ih (n + 1)
      unfold notificationsOf at this
      simp [this]
    · rw [if_neg h]
      have := ih (n + 1)
      unfold notificationsOf at this
      simp [this]

/-! ## C4 -/

/-- Snapshot with no free adapter and no duplicate occupant: the planner
returns `error` (hci0 is occupied by in-config speaker BB:02, target AA:01
is connected nowhere). -/
def snapNoFree : ObjectTree :=
  [ ("/org/bluez/hci9", adObj "R0:00"),
    ("/org/bluez/hci0", adObj "A0:00"),
    ("/org/bluez/hci0/dev_BB_02", devObj "BB:02" true) ]

/-- C4 counterexample: a `CONNECT_ONE` whose Allocation Decision is `error`
emits no notification at all — no failure is reported to the
caller/notification channel, contradicting the claim that every CONNECT_ONE
yields exactly one terminal notification and that `error` is reported. -/
theorem connect_one_error_unreported :
    (connect_one_plan "hci9" "AA:01" ["AA:01", "BB:02"] snapNoFree).status = "error" ∧
    notificationsOf (workerConnectOne "hci9" (fun _ => true) true envAllOk 20 none
        ⟨[], []⟩ "AA:01" ["AA:01", "BB:02"] snapNoFree).2 = [] := by
  exact ⟨by decide, by decide⟩

/-- C4 (amended): whenever the Allocation Planner returns status `error` for
a `CONNECT_ONE`, the worker emits no notification for the command (it
silently finishes after executing the evictions) and leaves the Loopback
Registry unchanged; no failure report reaches the notification channel. -/
theorem connect_one_error_silent
    (reserved : String) (dcOk : Nat → Bool) (lbOk : Bool) (fenv : Env) (fuel : Nat)
    (devSnap : Option Device1) (st : SvcState) (mac_raw : String)
    (allowed_raw : List String) (objects : ObjectTree)
    (herr : (connect_one_plan reserved (pyUpper mac_raw)
        (allowed_raw.map pyUpper) objects).status = "error") :
    notificationsOf (workerConnectOne reserved dcOk lbOk fenv fuel devSnap st
        mac_raw allowed_raw objects).2 = [] ∧
    (workerConnectOne reserved dcOk lbOk fenv fuel devSnap st
        mac_raw allowed_raw objects).1.loopbacks = st.loopbacks := by
  unfold workerConnectOne
  dsimp only
  rw [herr]
  have h1 : ¬ (("error" : String) = "already_connected") := by decide
  have h2 : ¬ (("error" : String) = "needs_connection" ∧
      (connect_one_plan reserved (pyUpper mac_raw) (allowed_raw.map pyUpper) objects).ctrl ≠ "") := by
    intro h
    exact absurd h.1 (by decide)
  rw [if_neg h1, if_neg h2]
  exact ⟨notificationsOf_runEvictions _ _ _, rfl⟩

theorem connect_one_error_silent_witness :
    notificationsOf (workerConnectOne "hci9" (fun _ => true) true envAllOk 20 none
        ⟨[], []⟩ "AA:01" ["AA:01", "BB:02"] snapNoFree).2 = [] ∧
    (workerConnectOne "hci9" (fun _ => true) true envAllOk 20 none
        ⟨[], []⟩ "AA:01" ["AA:01", "BB:02"] snapNoFree).1.loopbacks = [] :=
  connect_one_error_silent "hci9" (fun _ => true) true envAllOk 20 none
    ⟨[], []⟩ "AA:01" ["AA:01", "BB:02"] snapNoFree (by decide)

/-! ## C2 -/

/-- C2 (code bug, evaluated at the failing input): a `CONNECT_ONE` for a
target connected on two adapters, whose MAC is in the Loopback Registry,
executes the eviction `disconnect_device_dbus`, which removes the target's
audio route (`remove_loopback_for_device`) — yet the MAC is never removed
from the registry, and because it is still registered the
`already_connected` branch does not re-create the route. The registry ends
up containing a MAC whose route was just destroyed, violating the
registry/route invariant. -/
theorem loopback_registry_eviction_gap :
    (workerConnectOne "hci9" (fun _ => true) true envAllOk 20 none
        ⟨["AA:01"], ["AA:01"]⟩ "AA:01" ["AA:01"] snapDouble).1.loopbacks = ["AA:01"] ∧
    WEv.removeLoopbackRoute "AA:01" ∈ (workerConnectOne "hci9" (fun _ => true) true envAllOk 20
        none ⟨["AA:01"], ["AA:01"]⟩ "AA:01" ["AA:01"] snapDouble).2 ∧
    ((workerConnectOne "hci9" (fun _ => true) true envAllOk 20 none
        ⟨["AA:01"], ["AA:01"]⟩ "AA:01" ["AA:01"] snapDouble).2.filter (fun e =>
          match e with
          | WEv.createLoopbackRoute _ _ => true
          | _ => false)) = [] := by
  exact ⟨by decide, by decide, by decide⟩

/-! ## Scan Coordinator (`scan_manager.py`)

The per-adapter discovery reference counts, with each StartDiscovery /
StopDiscovery bus call recorded together with the refcount at call time and
the call's outcome. Counts are `Int` (Python integers), so that
non-negativity is a real statement. The mutex serialises the two methods,
so a sequential command list is the faithful view. -/

/-- Outcome of one bus call. -/
inductive BusRes where
  | ok
  | err (msg : String)
deriving Repr, DecidableEq

/-- Per-adapter refcounts keyed by uppercased adapter MAC; a present key is
a known adapter (`self._adapters`). -/
abbrev ScanSt := List (String × Int)

/-- StartDiscovery / StopDiscovery calls, with the refcount at call time. -/
inductive ScanEv where
  | startCall (adapter : String) (preCount : Int) (res : BusRes)
  | stopCall (adapter : String) (preCount : Int) (res : BusRes)
deriving Repr, DecidableEq

/-- In-place update of the first entry with the given key. -/
def assocUpdate (k : String) (v : Int) : ScanSt → ScanSt
  | [] => []
  | (k', v') :: t => if k' = k then (k, v) :: t else (k', v') :: assocUpdate k v t

/-- `ScanManager.ensure_discovery`: unknown adapter raises; a zero count
triggers `StartDiscovery`, whose "InProgress" error is swallowed while any
other error propagates before the count is incremented; the count is then
incremented. -/
def ensure_discovery (startRes : BusRes) (st : ScanSt) (adapter_raw : String) :
    ScanSt × List ScanEv × Except String Unit :=
  let mac := pyUpper adapter_raw
  match st.find? (fun p => p.1 == mac) with
  | none => (st, [], .error "ValueError")
  | some (_, cnt) =>
    if cnt = 0 then
      match startRes with
      | .ok => (assocUpdate mac (cnt + 1) st, [.startCall mac cnt .ok], .ok ())
      | .err m =>
        if strContains "InProgress" m then
          (assocUpdate mac (cnt + 1) st, [.startCall mac cnt (.err m)], .ok ())
        else (st, [.startCall mac cnt (.err m)], .error m)
    else (assocUpdate mac (cnt + 1) st, [], .ok ())

/-- `ScanManager.release_discovery`: unknown adapter or zero count is a
no-op; otherwise the count is decremented and, when it reaches zero,
`StopDiscovery` runs with the same InProgress tolerance. -/
def release_discovery (stopRes : BusRes) (st : ScanSt) (adapter_raw : String) :
    ScanSt × List ScanEv × Except String Unit :=
  let mac := pyUpper adapter_raw
  match st.find? (fun p => p.1 == mac) with
  | none => (st, [], .ok ())
  | some (_, cnt) =>
    if cnt = 0 then (st, [], .ok ())
    else
      let st1 := assocUpdate mac (cnt - 1) st
      if cnt - 1 = 0 then
        match stopRes with
        | .ok => (st1, [.stopCall mac cnt .ok], .ok ())
        | .err m =>
          if strContains "InProgress" m then (st1, [.stopCall mac cnt (.err m)], .ok ())
          else (st1, [.stopCall mac cnt (.err m)], .error m)
      else (st1, [], .ok ())

/-- One call to the Scan Coordinator, with its bus outcome. -/
inductive ScanCmd where
  | ensure (adapter : String) (res : BusRes)
  | release (adapter : String) (res : BusRes)
deriving Repr, DecidableEq

def scanStep (st : ScanSt) : ScanCmd → ScanSt × List ScanEv × Except String Unit
  | .ensure a r => ensure_discovery r st a
  | .release a r => release_discovery r st a

/-- A sequence of ensure/release calls (exceptions are caught by the
callers; the state mutations already made persist). -/
def scanRun : ScanSt → List ScanCmd → ScanSt × List ScanEv
  | st, [] => (st, [])
  | st, c :: cs =>
    let r := scanStep st c
    let rr := scanRun r.1 cs
    (rr.1, r.2.1 ++ rr.2)

theorem assocUpdate_mem (k : String) (v : Int) :
    ∀ (st : ScanSt) (p : String × Int), p ∈ assocUpdate k v st → p = (k, v) ∨ p ∈ st := by
  intro st
  induction st with
  | nil => intro p hp; simp [assocUpdate] at hp
  | cons x t ih =>
    intro p hp
    unfold assocUpdate at hp
    split at hp
    · rcases List.mem_cons.1 hp with rfl | hp
      · exact Or.inl rfl
      · exact Or.inr (List.mem_cons_of_mem _ hp)
    · rcases List.mem_cons.1 hp with rfl | hp
      · exact Or.inr (List.mem_cons_self _ _)
      · rcases ih p hp with h | h
        · exact Or.inl h
        · exact Or.inr (List.mem_cons_of_mem _ h)

/-- One step preserves non-negativity of all counts. -/
theorem scanStep_nonneg (st : ScanSt) (c : ScanCmd) (h : ∀ p ∈ st, (0:Int) ≤ p.2) :
    ∀ p ∈ (scanStep st c).1, (0:Int) ≤ p.2 := by
  rcases c with ⟨a, r⟩ | ⟨a, r⟩
  · unfold scanStep ensure_discovery
    dsimp only
    split
    · exact h
    · rename_i k cnt hfind
      have hcnt : (0:Int) ≤ cnt := h _ (List.mem_of_find?_eq_some hfind)
      split
      · split
        · intro p hp
          rcases assocUpdate_mem _ _ _ p hp with rfl | hp
          · simpa using by omega
          · exact h p hp
        · split
          · intro p hp
            rcases assocUpdate_mem _ _ _ p hp with rfl | hp
            · simpa using by omega
            · exact h p hp
          · exact h
      · intro p hp
        rcases assocUpdate_mem _ _ _ p hp with rfl | hp
        · simpa using by omega
        · exact h p hp
  · unfold scanStep release_discovery
    dsimp only
    split
    · exact h
    · rename_i k cnt hfind
      have hcnt : (0:Int) ≤ cnt := h _ (List.mem_of_find?_eq_some hfind)
      split
      · exact h
      · rename_i hne
        have hge : (0:Int) ≤ cnt - 1 := by omega
        split
        · split
          · intro p hp
            rcases assocUpdate_mem _ _ _ p hp with rfl | hp
            · simpa using hge
            · exact h p hp
          · split
            · intro p hp
              rcases assocUpdate_mem _ _ _ p hp with rfl | hp
              · simpa using hge
              · exact h p hp
            · intro p hp
              rcases assocUpdate_mem _ _ _ p hp with rfl | hp
              · simpa using hge
              · exact h p hp
        · intro p hp
          rcases assocUpdate_mem _ _ _ p hp with rfl | hp
          · simpa using hge
          · exact h p hp

/-- Every bus call a step makes happens at the protocol point: a start call
with the count at 0, a stop call with the count at 1. -/
theorem scanStep_events (st : ScanSt) (c : ScanCmd) :
    ∀ e ∈ (scanStep st c).2.1,
      (∀ a pre r, e = ScanEv.startCall a pre r → pre = 0) ∧
      (∀ a pre r, e = ScanEv.stopCall a pre r → (st.find? (fun p => p.1 == a)).isSome ∧ pre = 1) := by
  rcases c with ⟨a, r⟩ | ⟨a, r⟩
  · unfold scanStep ensure_discovery
    dsimp only
    split
    · intro e he; simp at he
    · rename_i k cnt hfind
      split
      · rename_i hz
        split
        · intro e he
          rcases List.mem_singleton.1 he with rfl
          constructor
          · intro a2 pre r2 heq
            cases heq
            exact hz
          · intro a2 pre r2 heq
            cases heq
        · split
          · intro e he
            rcases List.mem_singleton.1 he with rfl
            constructor
            · intro a2 pre r2 heq
              cases heq
              exact hz
            · intro a2 pre r2 heq
              cases heq
          · intro e he
            rcases List.mem_singleton.1 he with rfl
            constructor
            · intro a2 pre r2 heq
              cases heq
              exact hz
            · intro a2 pre r2 heq
              cases heq
      · intro e he; simp at he
  · unfold scanStep release_discovery
    dsimp only
    split
    · intro e he; simp at he
    · rename_i k cnt hfind
      split
      · intro e he; simp at he
      · rename_i hne
        split
        · rename_i hdec
          have hone : cnt = 1 := by omega
          split
          · intro e he
            rcases List.mem_singleton.1 he with rfl
            constructor
            · intro a2 pre r2 heq
              cases heq
            · intro a2 pre r2 heq
              cases heq
              exact ⟨by rw [hfind]; rfl, hone⟩
          · split
            · intro e he
              rcases List.mem_singleton.1 he with rfl
              constructor
              · intro a2 pre r2 heq
                cases heq
              · intro a2 pre r2 heq
                cases heq
                exact ⟨by rw [hfind]; rfl, hone⟩
            · intro e he
              rcases List.mem_singleton.1 he with rfl
              constructor
              · intro a2 pre r2 heq
                cases heq
              · intro a2 pre r2 heq
                cases heq
                exact ⟨by rw [hfind]; rfl, hone⟩
        · intro e he; simp at he

/-! ## C8 -/

/-- C8: over every sequence of ensure/release calls, (i) no adapter's
discovery refcount ever becomes negative; (ii) every `StartDiscovery` call
happens with the count at 0 (the 0→1 transition) and every `StopDiscovery`
call with the count at 1 (the 1→0 transition); (iii) an error containing
"InProgress" from `StartDiscovery` is swallowed (the method returns
normally) while any other error propagates; (iv) the same for
`StopDiscovery`. -/
theorem scan_refcount_protocol :
    (∀ (cmds : List ScanCmd) (st : ScanSt), (∀ p ∈ st, (0:Int) ≤ p.2) →
       ∀ p ∈ (scanRun st cmds).1, (0:Int) ≤ p.2) ∧
    (∀ (cmds : List ScanCmd) (st : ScanSt),
       ∀ e ∈ (scanRun st cmds).2,
         (∀ a pre r, e = ScanEv.startCall a pre r → pre = 0) ∧
         (∀ a pre r, e = ScanEv.stopCall a pre r → pre = 1)) ∧
    (∀ (st : ScanSt) (mac m k : String) (cnt : Int),
       st.find? (fun p => p.1 == pyUpper mac) = some (k, cnt) → cnt = 0 →
       ((strContains "InProgress" m = true →
           (ensure_discovery (.err m) st mac).2.2 = Except.ok ()) ∧
        (strContains "InProgress" m = false →
           (ensure_discovery (.err m) st mac).2.2 = Except.error m))) ∧
    (∀ (st : ScanSt) (mac m k : String) (cnt : Int),
       st.find? (fun p => p.1 == pyUpper mac) = some (k, cnt) → cnt ≠ 0 → cnt - 1 = 0 →
       ((strContains "InProgress" m = true →
           (release_discovery (.err m) st mac).2.2 = Except.ok ()) ∧
        (strContains "InProgress" m = false →
           (release_discovery (.err m) st mac).2.2 = Except.error m))) := by
  refine ⟨?_, ?_, ?_, ?_⟩
  · intro cmds
    induction cmds with
    | nil =>
      intro st h p hp
      unfold scanRun at hp
      exact h p hp
    | cons c cs ih =>
      intro st h p hp
      unfold scanRun at hp
      dsimp only at hp
      exact ih _ (scanStep_nonneg st c h) p hp
  · intro cmds
    induction cmds with
    | nil =>
      intro st e he
      unfold scanRun at he
      simp at he
    | cons c cs ih =>
      intro st e he
      unfold scanRun at he
      dsimp only at he
      rcases List.mem_append.1 he with he | he
      · have hst := scanStep_events st c e he
        exact ⟨hst.1, fun a pre r heq => (hst.2 a pre r heq).2⟩
      · exact ih _ e he
  · intro st mac m k cnt hfind hz
    constructor
    · intro hm
      simp [ensure_discovery, hfind, hz, hm]
    · intro hm
      simp [ensure_discovery, hfind, hz, hm]
  · intro st mac m k cnt hfind hne hdec
    constructor
    · intro hm
      simp [release_discovery, hfind, hne, hdec, hm]
    · intro hm
      simp [release_discovery, hfind, hne, hdec, hm]

/-- Initial scan state and call sequence for the closed witness: two nested
ensure calls, three release calls (the third hits the zero-count guard). -/
def scanSt0 : ScanSt := [("A0:00", 0)]

def scanCmds0 : List ScanCmd :=
  [.ensure "A0:00" .ok, .ensure "A0:00" .ok, .release "A0:00" .ok,
   .release "A0:00" .ok, .release "A0:00" .ok]

theorem scan_refcount_protocol_witness :
    (∀ p ∈ (scanRun scanSt0 scanCmds0).1, (0:Int) ≤ p.2) ∧
    (ensure_discovery (.err "org.bluez.Error.InProgress: busy") scanSt0 "a0:00").2.2
      = Except.ok () := by
  constructor
  · exact scan_refcount_protocol.1 scanCmds0 scanSt0 (by decide)
  · exact (scan_refcount_protocol.2.2.1 scanSt0 "a0:00" "org.bluez.Error.InProgress: busy"
      "A0:00" 0 (by decide) rfl).1 (by decide)

end SyncSonic
